import Mathlib

/-!
Shallow embedding of the gae-sqlite datastore stub: the entity codec
(`PRMHelper.entityToDict`, `PRMHelper.dictToEntity`, `PRMHelper.pkFromRow`),
the schema mapper (`PRMHelper.getSchema`, `PRMHelper.suggestMutation`) of
`datastore_sqlite_stub.py`, and the store operations
(`DatastoreSqlStub._Dynamic_RunQuery`, `DatastoreSqlStub._Dynamic_Next`) of
`trunk/datastore_base.py`.

Modelling conventions: Python strings are `List Char`; Python dicts are
insertion-ordered association lists (assignment overwrites in place,
otherwise appends); SQLite row/parameter values are the closed sum
`SqlValue` (`null` plays the role of Python `None` / SQL `NULL`); Python
exceptions (`assert` failures, `KeyError`, coercion errors, API errors)
are `Except DsError`.  Doubles are carried opaquely by their bit pattern:
the code only ever copies them.  The relational engine is an external
collaborator, so query execution is modelled by the row sequence the
driver returns for the generated statement.
-/

deriving instance DecidableEq for Except

namespace GaeSqlite

/-- Python strings are modelled as lists of characters. -/
abbrev Str : Type := List Char

/-- A SQLite cell / bound-parameter value.  `null` models Python `None`
(and SQL `NULL`).  `double` carries the IEEE-754 payload opaquely; the
embedded code only ever copies doubles. -/
inductive SqlValue where
  | null : SqlValue
  | int : Int → SqlValue
  | text : Str → SqlValue
  | double : Int → SqlValue
  deriving DecidableEq

/-- An insertion-ordered association list modelling a Python dict. -/
abbrev Dict (κ : Type) (β : Type) : Type := List (κ × β)

/-- Whether a key is present in a dict (`k in d`). -/
def alistContains [DecidableEq κ] (d : Dict κ β) (k : κ) : Bool :=
  d.any (fun p => decide (p.1 = k))

/-- First value stored under a key (`d.get(k)` without the default). -/
def alistGet [DecidableEq κ] : Dict κ β → κ → Option β
  | [], _ => none
  | p :: rest, k => if p.1 = k then some p.2 else alistGet rest k

/-- Python dict assignment `d[k] = v`: overwrites in place if the key is
present, otherwise appends at the end (insertion order). -/
def alistInsert [DecidableEq κ] (d : Dict κ β) (k : κ) (v : β) : Dict κ β :=
  if alistContains d k then d.map (fun p => if p.1 = k then (k, v) else p)
  else d ++ [(k, v)]

/-- Python `d.pop(k, None)`: removes the entry for `k` if present. -/
def alistPop [DecidableEq κ] (d : Dict κ β) (k : κ) : Dict κ β :=
  d.filter (fun p => !decide (p.1 = k))

/-- The four supported primitive property values of the entity protocol
buffer (`value_pb.has_int64value()` and friends are checked in this
order; exactly one branch applies to a well-formed property value). -/
inductive PropValue where
  | int64 : Int → PropValue
  | string : Str → PropValue
  | boolean : Bool → PropValue
  | double : Int → PropValue
  deriving DecidableEq

/-- A property protocol buffer: a name, the `multiple` flag (with its
presence bit), and an optional value (`has_value`). -/
structure Property where
  name : Str
  has_multiple : Bool
  multiple : Bool
  value : Option PropValue
  deriving DecidableEq

/-- Errors of the embedded code: `assert` failures, unsupported types and
operators, duplicate query conditions, unknown cursors, and Python-level
type/coercion errors. -/
inductive DsError where
  | unsupportedType : DsError
  | multipleProperty : DsError
  | duplicateCondition : Str → DsError
  | unsupportedOperator : Int → DsError
  | cursorNotFound : Nat → DsError
  | typeError : DsError
  deriving DecidableEq

/-- The type tag of a property value, as used in the self-describing
column naming convention (`int64_`, `string_`, `boolean_`, `double_`). -/
def typeTag : PropValue → Str
  | .int64 _ => "int64".toList
  | .string _ => "string".toList
  | .boolean _ => "boolean".toList
  | .double _ => "double".toList

/-- The physical column name `{type-tag}_{property-name}` synthesized by
`entityToDict` for a property. -/
def colKey (name : Str) (v : PropValue) : Str :=
  typeTag v ++ '_' :: name

/-- The cell value `entityToDict` stores for a property value: booleans
are encoded as the integers 1/0, everything else passes through. -/
def sqlOfProp : PropValue → SqlValue
  | .int64 i => .int i
  | .string s => .text s
  | .boolean b => .int (if b then 1 else 0)
  | .double d => .double d

/-- The inner loop of `PRMHelper.entityToDict` over the properties of one
item: asserts the property is not `multiple`, skips valueless properties,
synthesizes the column key and value, and hands them to `populate_dict`
(the default `populate_dict` stores the value under the column key). -/
def entityToDictLoop (populate : Dict Str SqlValue → α → Str → SqlValue → Except DsError (Dict Str SqlValue))
    (item : α) : List Property → Dict Str SqlValue → Except DsError (Dict Str SqlValue)
  | [], result => .ok result
  | p :: rest, result =>
    if p.has_multiple && p.multiple then .error .multipleProperty
    else match p.value with
      | none => entityToDictLoop populate item rest result
      | some v =>
        match populate result item (colKey p.name v) (sqlOfProp v) with
        | .error e => .error e
        | .ok result2 => entityToDictLoop populate item rest result2

/-- The outer loop of `PRMHelper.entityToDict` over `get_list(pb)`;
`unwrap` is the `unwrap_properties` parameter. -/
def entityToDictItems (populate : Dict Str SqlValue → α → Str → SqlValue → Except DsError (Dict Str SqlValue))
    (unwrap : α → List Property) : List α → Dict Str SqlValue → Except DsError (Dict Str SqlValue)
  | [], result => .ok result
  | a :: rest, result =>
    match entityToDictLoop populate a (unwrap a) result with
    | .error e => .error e
    | .ok result2 => entityToDictItems populate unwrap rest result2

/-- Embeds `PRMHelper.entityToDict` in its general, parameterized form. -/
def entityToDictGen (items : List α) (unwrap : α → List Property)
    (populate : Dict Str SqlValue → α → Str → SqlValue → Except DsError (Dict Str SqlValue)) :
    Except DsError (Dict Str SqlValue) :=
  entityToDictItems populate unwrap items []

/-- The default `populate_dict`: `result[col_key] = property_value`. -/
def defaultPopulate : Dict Str SqlValue → Property → Str → SqlValue → Except DsError (Dict Str SqlValue) :=
  fun result _ col_key v => .ok (alistInsert result col_key v)

/-- Embeds `PRMHelper.entityToDict` with all parameters at their defaults:
`get_list` yields the entity's property list, `unwrap_properties` is the
singleton, and values are stored under their column keys. -/
def entityToDict (props : List Property) : Except DsError (Dict Str SqlValue) :=
  entityToDictGen props (fun p => [p]) defaultPopulate

/-- Index of the first `'_'` in a string (`key.find` restricted to the
uses in the source, which only compare the result against 1). -/
def findUnderscore : Str → Option Nat
  | [] => none
  | c :: rest => if c = '_' then some 0 else (findUnderscore rest).map (fun i => i + 1)

/-- Splitting a column name at its first underscore into type tag and
property name; `none` when the source's `i < 1` guard skips the column
(no underscore, or an underscore in position 0). -/
def splitTag (key : Str) : Option (Str × Str) :=
  match findUnderscore key with
  | none => none
  | some i => if i < 1 then none else some (key.take i, key.drop (i + 1))

/-- Python `long(value)` on a SQLite cell.  On the embedded code paths the
argument is always an integer cell; other cells are modelled as a
coercion error. -/
def pyLong : SqlValue → Except DsError Int
  | .int i => .ok i
  | _ => .error .typeError

/-- Python `value != 0` on a SQLite cell (under Python 2 a string or
`None` always compares unequal to the integer 0; boolean columns hold the
integers written by `entityToDict` on the embedded paths, so the opaque
double payload is never consulted). -/
def pyNeZero : SqlValue → Bool
  | .int i => decide (i ≠ 0)
  | .text _ => true
  | .null => true
  | .double _ => true

/-- One iteration of `PRMHelper.dictToEntity`: split the column key, and
for a recognized type tag append a property (with `multiple` set to
`False`) holding the correspondingly typed value; unrecognized tags add
nothing. -/
def decodeEntry (acc : List Property) (key : Str) (value : SqlValue) : Except DsError (List Property) :=
  match splitTag key with
  | none => .ok acc
  | some pair =>
    if pair.1 = "int64".toList then
      match pyLong value with
      | .error e => .error e
      | .ok i => .ok (acc ++ [⟨pair.2, true, false, some (.int64 i)⟩])
    else if pair.1 = "string".toList then
      match value with
      | .text s => .ok (acc ++ [⟨pair.2, true, false, some (.string s)⟩])
      | _ => .error .typeError
    else if pair.1 = "boolean".toList then
      .ok (acc ++ [⟨pair.2, true, false, some (.boolean (pyNeZero value))⟩])
    else if pair.1 = "double".toList then
      match value with
      | .double d => .ok (acc ++ [⟨pair.2, true, false, some (.double d)⟩])
      | _ => .error .typeError
    else .ok acc

/-- The loop of `PRMHelper.dictToEntity` over `values.items()`. -/
def dictToEntityLoop : Dict Str SqlValue → List Property → Except DsError (List Property)
  | [], acc => .ok acc
  | kv :: rest, acc =>
    match decodeEntry acc kv.1 kv.2 with
    | .error e => .error e
    | .ok acc2 => dictToEntityLoop rest acc2

/-- Embeds `PRMHelper.dictToEntity`: transfers a column map into the property
list of a fresh entity protocol buffer. -/
def dictToEntity (values : Dict Str SqlValue) : Except DsError (List Property) :=
  dictToEntityLoop values []

/-- The column-key/cell pair a valued property encodes to. -/
def encPair (p : Property) : Option (Str × SqlValue) :=
  p.value.map (fun v => (colKey p.name v, sqlOfProp v))

/-- What a property looks like after an encode/decode round trip: same
name and value, `multiple` explicitly set to `False`. -/
def decProp (p : Property) : Property :=
  ⟨p.name, true, false, p.value⟩

/-! Basic dictionary lemmas. -/

theorem alistContains_append [DecidableEq κ] (d e : Dict κ β) (k : κ) :
    alistContains (d ++ e) k = (alistContains d k || alistContains e k) := by
  simp [alistContains, List.any_append]

theorem alistInsert_of_not_contains [DecidableEq κ] {d : Dict κ β} {k : κ}
    (h : alistContains d k = false) (v : β) : alistInsert d k v = d ++ [(k, v)] := by
  simp [alistInsert, h]

/-! Splitting the synthesized column names recovers tag and name. -/

theorem findUnderscore_append {tag : Str} (h : ∀ c ∈ tag, c ≠ '_') (rest : Str) :
    findUnderscore (tag ++ '_' :: rest) = some tag.length := by
  induction tag with
  | nil => simp [findUnderscore]
  | cons c tl ih =>
    have hc : c ≠ '_' := h c (by simp)
    have htl : ∀ c ∈ tl, c ≠ '_' := fun c hmem => h c (by simp [hmem])
    simp [findUnderscore, hc, ih htl]

theorem take_len_append (l₁ l₂ : List α) : (l₁ ++ l₂).take l₁.length = l₁ := by
  induction l₁ with
  | nil => simp
  | cons a tl ih => simp [ih]

theorem drop_len_succ_append (l₁ : List α) (c : α) (l₂ : List α) :
    (l₁ ++ c :: l₂).drop (l₁.length + 1) = l₂ := by
  induction l₁ with
  | nil => simp
  | cons a tl ih => simp [ih]

theorem splitTag_append {tag : Str} (hne : tag ≠ []) (h : ∀ c ∈ tag, c ≠ '_')
    (rest : Str) : splitTag (tag ++ '_' :: rest) = some (tag, rest) := by
  have hlen : 1 ≤ tag.length := by
    cases tag with
    | nil => exact absurd rfl hne
    | cons a tl => simp
  simp [splitTag, findUnderscore_append h, Nat.not_lt.mpr hlen,
    take_len_append, drop_len_succ_append]

theorem splitTag_int64 (rest : Str) :
    splitTag ('i' :: 'n' :: 't' :: '6' :: '4' :: '_' :: rest) = some (['i', 'n', 't', '6', '4'], rest) :=
  @splitTag_append ['i', 'n', 't', '6', '4'] (by decide) (by decide) rest

theorem splitTag_string (rest : Str) :
    splitTag ('s' :: 't' :: 'r' :: 'i' :: 'n' :: 'g' :: '_' :: rest) = some (['s', 't', 'r', 'i', 'n', 'g'], rest) :=
  @splitTag_append ['s', 't', 'r', 'i', 'n', 'g'] (by decide) (by decide) rest

theorem splitTag_boolean (rest : Str) :
    splitTag ('b' :: 'o' :: 'o' :: 'l' :: 'e' :: 'a' :: 'n' :: '_' :: rest) =
      some (['b', 'o', 'o', 'l', 'e', 'a', 'n'], rest) :=
  @splitTag_append ['b', 'o', 'o', 'l', 'e', 'a', 'n'] (by decide) (by decide) rest

theorem splitTag_double (rest : Str) :
    splitTag ('d' :: 'o' :: 'u' :: 'b' :: 'l' :: 'e' :: '_' :: rest) =
      some (['d', 'o', 'u', 'b', 'l', 'e'], rest) :=
  @splitTag_append ['d', 'o', 'u', 'b', 'l', 'e'] (by decide) (by decide) rest

/-- The four type tags have pairwise distinct first characters, so equal
column keys force equal property names. -/
theorem colKey_name_inj {n n' : Str} {v v' : PropValue}
    (h : colKey n v = colKey n' v') : n = n' := by
  cases v <;> cases v' <;>
    simp only [colKey, typeTag, String.toList] at h <;>
    simp_all

/-! Encoding a valued, non-multiple property list with fresh column keys
appends the encoded pairs in order. -/

theorem entityToDict_items_default (props : List Property) :
    ∀ d : Dict Str SqlValue,
    (∀ p ∈ props, p.value.isSome = true) →
    (∀ p ∈ props, ¬(p.has_multiple = true ∧ p.multiple = true)) →
    (∀ k ∈ (props.filterMap encPair).map Prod.fst, alistContains d k = false) →
    ((props.filterMap encPair).map Prod.fst).Nodup →
    entityToDictItems defaultPopulate (fun p => [p]) props d = .ok (d ++ props.filterMap encPair) := by
  induction props with
  | nil => intro d _ _ _ _; simp [entityToDictItems]
  | cons p rest ih =>
    intro d h1 h2 hd h3
    obtain ⟨v, hv⟩ := Option.isSome_iff_exists.mp (h1 p (by simp))
    have hthis := h2 p (by simp)
    have hmul : (p.has_multiple && p.multiple) = false := by
      cases hb : p.has_multiple with
      | false => simp
      | true =>
        cases hb2 : p.multiple with
        | false => simp
        | true => exact absurd ⟨hb, hb2⟩ hthis
    have henc : encPair p = some (colKey p.name v, sqlOfProp v) := by
      simp [encPair, hv]
    have hkeys : ((p :: rest).filterMap encPair).map Prod.fst =
        colKey p.name v :: (rest.filterMap encPair).map Prod.fst := by
      rw [List.filterMap_cons_some henc, List.map_cons]
    have hfresh : alistContains d (colKey p.name v) = false :=
      hd (colKey p.name v) (by rw [hkeys]; exact List.mem_cons_self _ _)
    have hstep : entityToDictLoop defaultPopulate p [p] d =
        .ok (d ++ [(colKey p.name v, sqlOfProp v)]) := by
      simp [entityToDictLoop, hmul, hv, defaultPopulate,
        alistInsert_of_not_contains hfresh]
    rw [hkeys] at h3 hd
    have h3' := h3.of_cons
    have hnotmem : colKey p.name v ∉ (rest.filterMap encPair).map Prod.fst :=
      (List.nodup_cons.mp h3).1
    have hd' : ∀ k ∈ (rest.filterMap encPair).map Prod.fst,
        alistContains (d ++ [(colKey p.name v, sqlOfProp v)]) k = false := by
      intro k hk
      rw [alistContains_append]
      have h1k : alistContains d k = false := hd k (by simp [hk])
      have h2k : alistContains [(colKey p.name v, sqlOfProp v)] k = false := by
        simp [alistContains]
        intro heq
        exact absurd hk (heq ▸ hnotmem)
      simp [h1k, h2k]
    have hrest := ih (d ++ [(colKey p.name v, sqlOfProp v)])
      (fun q hq => h1 q (by simp [hq])) (fun q hq => h2 q (by simp [hq])) hd' h3'
    simp only [entityToDictItems, hstep, hrest]
    rw [List.filterMap_cons_some henc]
    simp

/-! Decoding the encoded pairs recovers the original properties (with
`multiple` set to `False`). -/

theorem decodeEntry_enc (acc : List Property) (n : Str) (v : PropValue) :
    decodeEntry acc (colKey n v) (sqlOfProp v) = .ok (acc ++ [decProp ⟨n, true, false, some v⟩]) := by
  cases v with
  | int64 i =>
    simp [decodeEntry, colKey, typeTag, splitTag_int64, pyLong, sqlOfProp, decProp]
  | string s =>
    simp [decodeEntry, colKey, typeTag, splitTag_string, sqlOfProp, decProp]
  | boolean b =>
    cases b <;>
      simp [decodeEntry, colKey, typeTag, splitTag_boolean, sqlOfProp, decProp, pyNeZero]
  | double d =>
    simp [decodeEntry, colKey, typeTag, splitTag_double, sqlOfProp, decProp]

theorem dictToEntityLoop_enc (props : List Property) :
    ∀ acc : List Property,
    (∀ p ∈ props, p.value.isSome = true) →
    dictToEntityLoop (props.filterMap encPair) acc = .ok (acc ++ props.map decProp) := by
  induction props with
  | nil => intro acc _; simp [dictToEntityLoop]
  | cons p rest ih =>
    intro acc h1
    obtain ⟨v, hv⟩ := Option.isSome_iff_exists.mp (h1 p (by simp))
    have henc : encPair p = some (colKey p.name v, sqlOfProp v) := by
      simp [encPair, hv]
    have hdec : decProp p = decProp ⟨p.name, true, false, some v⟩ := by
      simp [decProp, hv]
    rw [List.filterMap_cons_some henc]
    simp only [dictToEntityLoop, decodeEntry_enc]
    rw [ih (acc ++ [decProp ⟨p.name, true, false, some v⟩])
      (fun q hq => h1 q (by simp [hq]))]
    simp [hdec]

/-- Distinct property names give distinct synthesized column keys. -/
theorem encKeys_nodup (props : List Property)
    (h1 : ∀ p ∈ props, p.value.isSome = true)
    (hn : (props.map Property.name).Nodup) :
    ((props.filterMap encPair).map Prod.fst).Nodup := by
  induction props with
  | nil => simp
  | cons p rest ih =>
    obtain ⟨v, hv⟩ := Option.isSome_iff_exists.mp (h1 p (by simp))
    have henc : encPair p = some (colKey p.name v, sqlOfProp v) := by
      simp [encPair, hv]
    have hn2 := hn
    rw [List.map_cons, List.nodup_cons] at hn2
    rw [List.filterMap_cons_some henc, List.map_cons, List.nodup_cons]
    constructor
    · intro hmem
      obtain ⟨pair, hpair, hfst⟩ := List.mem_map.mp hmem
      obtain ⟨q, hq, hq2⟩ := List.mem_filterMap.mp hpair
      obtain ⟨w, hw⟩ := Option.isSome_iff_exists.mp (h1 q (by simp [hq]))
      have hpair2 : pair = (colKey q.name w, sqlOfProp w) := by
        simp [encPair, hw] at hq2
        exact hq2.symm
      subst hpair2
      have hname := colKey_name_inj (hfst : colKey q.name w = colKey p.name v)
      exact hn2.1 (hname ▸ List.mem_map.mpr ⟨q, hq, rfl⟩)
    · exact ih (fun q hq => h1 q (by simp [hq])) hn2.2

/-- Claim C1: for every entity all of whose properties hold values of the
four supported primitive types, encoding with `entityToDict` and decoding
the resulting column map with `dictToEntity` yields exactly the original
named, typed property values (each decoded property has `multiple`
explicitly set to `False`); moreover `True` encodes as the integer 1 and
any nonzero integer in a `boolean_` column decodes as `True`. -/
theorem c1_codec_roundtrip :
    (∀ props : List Property,
      (∀ p ∈ props, p.value.isSome = true) →
      (∀ p ∈ props, ¬(p.has_multiple = true ∧ p.multiple = true)) →
      (props.map Property.name).Nodup →
      (entityToDict props).bind dictToEntity = .ok (props.map decProp)) ∧
    (∀ nm : Str, ∀ i : Int, i ≠ 0 →
      dictToEntity [('b' :: 'o' :: 'o' :: 'l' :: 'e' :: 'a' :: 'n' :: '_' :: nm, SqlValue.int i)] =
        .ok [⟨nm, true, false, some (PropValue.boolean true)⟩]) ∧
    (∀ nm : Str,
      entityToDict [⟨nm, false, false, some (PropValue.boolean true)⟩] =
        .ok [('b' :: 'o' :: 'o' :: 'l' :: 'e' :: 'a' :: 'n' :: '_' :: nm, SqlValue.int 1)]) := by
  refine ⟨?_, ?_, ?_⟩
  · intro props h1 h2 hn
    have hkeys := encKeys_nodup props h1 hn
    have henc := entityToDict_items_default props [] h1 h2 (fun k _ => rfl) hkeys
    have hstep : entityToDict props = Except.ok (props.filterMap encPair) := by
      simpa [entityToDict, entityToDictGen] using henc
    rw [hstep]
    have hdec := dictToEntityLoop_enc props [] h1
    simpa [Except.bind, dictToEntity] using hdec
  · intro nm i hi
    simp [dictToEntity, dictToEntityLoop, decodeEntry, splitTag_boolean, pyNeZero, hi]
  · intro nm
    simp [entityToDict, entityToDictGen, entityToDictItems, entityToDictLoop,
      defaultPopulate, alistInsert, alistContains, sqlOfProp, colKey, typeTag]

theorem c1_codec_roundtrip_witness :
    ((entityToDict
        [⟨['a'], false, false, some (PropValue.int64 7)⟩,
         ⟨['b'], false, false, some (PropValue.string ['x'])⟩,
         ⟨['c'], false, false, some (PropValue.boolean true)⟩,
         ⟨['d'], false, false, some (PropValue.double 3)⟩]).bind dictToEntity =
      .ok
        [⟨['a'], true, false, some (PropValue.int64 7)⟩,
         ⟨['b'], true, false, some (PropValue.string ['x'])⟩,
         ⟨['c'], true, false, some (PropValue.boolean true)⟩,
         ⟨['d'], true, false, some (PropValue.double 3)⟩]) ∧
    dictToEntity [('b' :: 'o' :: 'o' :: 'l' :: 'e' :: 'a' :: 'n' :: '_' :: ['x'], SqlValue.int 5)] =
      .ok [⟨['x'], true, false, some (PropValue.boolean true)⟩] ∧
    entityToDict [⟨['y'], false, false, some (PropValue.boolean true)⟩] =
      .ok [('b' :: 'o' :: 'o' :: 'l' :: 'e' :: 'a' :: 'n' :: '_' :: ['y'], SqlValue.int 1)] :=
  ⟨c1_codec_roundtrip.1 _ (by decide) (by decide) (by decide),
   c1_codec_roundtrip.2.1 ['x'] 5 (by decide),
   c1_codec_roundtrip.2.2 ['y']⟩

/-- One column of `PRAGMA TABLE_INFO` during `PRMHelper.getSchema`: the
name is split at its first underscore (skipped when `find` returns less
than 1), `pk`-tagged columns are skipped, and the column is appended to
its property's column list. -/
def addSchemaCol (result : Dict Str (List Str)) (key : Str) : Dict Str (List Str) :=
  match splitTag key with
  | none => result
  | some pair =>
    if pair.1 = "pk".toList then result
    else match alistGet result pair.2 with
      | none => alistInsert result pair.2 [key]
      | some l => alistInsert result pair.2 (l ++ [key])

/-- The loop of `PRMHelper.getSchema` over the table's column metadata. -/
def schemaLoop : List Str → Dict Str (List Str) → Dict Str (List Str)
  | [], result => result
  | c :: rest, result => schemaLoop rest (addSchemaCol result c)

/-- Embeds `PRMHelper.getSchema`: builds the property-to-columns map from the
names `PRAGMA TABLE_INFO` reports; `none` when the table does not exist
(`has_table` stays false exactly when no column row was seen). -/
def getSchema (tableColumns : List Str) : Option (Dict Str (List Str)) :=
  if tableColumns = [] then none else some (schemaLoop tableColumns [])

/-- Embeds `PRMHelper.__suggestRows`' per-value SQL type (`__types`): strings map
to TEXT, integers to INTEGER, floats to DOUBLE, and any other sample
value fails the `assert value_type in self.__types`. -/
def sqlType : SqlValue → Except DsError Str
  | .text _ => .ok ("TEXT".toList)
  | .int _ => .ok ("INTEGER".toList)
  | .double _ => .ok ("DOUBLE".toList)
  | .null => .error .unsupportedType

/-- The SQL type a non-null sample value is given (spec-side total
companion of `sqlType`, used to state theorems). -/
def sqlTypeStr : SqlValue → Str
  | .text _ => "TEXT".toList
  | .int _ => "INTEGER".toList
  | .double _ => "DOUBLE".toList
  | .null => []

/-- Embeds `PRMHelper.__suggestRows`: one `column_name type` snippet per sample
column, in dict order. -/
def suggestRows : Dict Str SqlValue → Except DsError (List Str)
  | [] => .ok []
  | kv :: rest =>
    match sqlType kv.2 with
    | .error e => .error e
    | .ok t =>
      match suggestRows rest with
      | .error e => .error e
      | .ok others => .ok ((kv.1 ++ ' ' :: t) :: others)

/-- The inner loop of `suggestMutation`'s duplicate elimination:
`for column in columns: new_rows.pop(column, None)`. -/
def popColumns : Dict Str SqlValue → List Str → Dict Str SqlValue
  | nr, [] => nr
  | nr, c :: rest => popColumns (alistPop nr c) rest

/-- The outer loop of `suggestMutation`'s duplicate elimination over
`current_schema.values()`.  The two `pop`s of the reserved key columns
sit inside this loop in the source, so they run once per schema entry —
and never when the derived schema is empty. -/
def eliminateExisting : Dict Str (List Str) → Dict Str SqlValue → Dict Str SqlValue
  | [], nr => nr
  | e :: rest, nr =>
    eliminateExisting rest
      (alistPop (alistPop (popColumns nr e.2) ("pk_string".toList)) ("pk_int".toList))

/-- Python `sep.join(parts)`. -/
def joinSep (sep : Str) : List Str → Str
  | [] => []
  | [s] => s
  | s :: rest => s ++ sep ++ joinSep sep rest

/-- The `CREATE TABLE name (snippet,snippet,...);` statement. -/
def createTableStmt (table_name : Str) (snippets : List Str) : Str :=
  ("CREATE TABLE ".toList) ++ table_name ++ (" (".toList) ++
    joinSep (",".toList) snippets ++ (");".toList)

/-- The `ALTER TABLE name ADD COLUMN snippet` statement. -/
def alterTableStmt (table_name : Str) (snippet : Str) : Str :=
  ("ALTER TABLE ".toList) ++ table_name ++ (" ADD COLUMN ".toList) ++ snippet

/-- Embeds `PRMHelper.suggestMutation`: drop sample columns that already exist
(and, once per nonempty-schema entry, the reserved key columns), return
nothing if the table exists and nothing is new, otherwise emit a single
CREATE TABLE (with the two reserved key columns appended when `add_rowz`)
or one ALTER TABLE ADD COLUMN per remaining new column. -/
def suggestMutation (tableColumns : List Str) (table_name : Str)
    (sample_dict : Dict Str SqlValue) (add_rowz : Bool) : Except DsError (List Str) :=
  let current_schema := getSchema tableColumns
  let new_table := current_schema.isNone
  let new_rows :=
    match current_schema with
    | none => sample_dict
    | some schema => eliminateExisting schema sample_dict
  if !new_table && new_rows.isEmpty then .ok []
  else
    match suggestRows new_rows with
    | .error e => .error e
    | .ok snippets0 =>
      let snippets :=
        if new_table && add_rowz then
          snippets0 ++ [("pk_int INTEGER PRIMARY KEY".toList), ("pk_string TEXT".toList)]
        else snippets0
      if new_table then .ok [createTableStmt table_name snippets]
      else .ok (snippets.map (fun snippet => alterTableStmt table_name snippet))

/-- The corrected notion of a "new" sample column: not realized by any
column of the derived schema and, whenever the derived schema is
nonempty, not one of the two reserved primary-key columns. -/
def specNewPred (schema : Dict Str (List Str)) (k : Str) : Bool :=
  !(schema.any (fun kv => kv.2.any (fun c => decide (c = k)))) &&
    (schema.isEmpty ||
      (!(decide (k = "pk_string".toList)) && !(decide (k = "pk_int".toList))))

/-- The predicate that one pass of `eliminateExisting` keeps a sample
entry. -/
def elimPred : Dict Str (List Str) → Str → Bool
  | [], _ => true
  | e :: rest, k =>
    (!(e.2.any (fun c => decide (c = k))) && !(decide (k = "pk_string".toList)) &&
      !(decide (k = "pk_int".toList))) && elimPred rest k

theorem filter_true_eq (l : List α) : l.filter (fun _ => true) = l := by
  induction l with
  | nil => rfl
  | cons a tl ih => simp [List.filter_cons, ih]

theorem filter_filter_eq (p q : α → Bool) (l : List α) :
    (l.filter p).filter q = l.filter (fun a => p a && q a) := by
  induction l with
  | nil => rfl
  | cons a tl ih =>
    cases hp : p a <;> cases hq : q a <;> simp [List.filter_cons, hp, hq, ih]

theorem popColumns_eq_filter (cols : List Str) :
    ∀ nr : Dict Str SqlValue,
    popColumns nr cols = nr.filter (fun kv => !(cols.any (fun c => decide (c = kv.1)))) := by
  induction cols with
  | nil => intro nr; simp [popColumns, filter_true_eq]
  | cons c rest ih =>
    intro nr
    rw [popColumns, ih, alistPop, filter_filter_eq]
    apply List.filter_congr
    intro kv _
    simp [List.any_cons, Bool.not_or, eq_comm]

theorem eliminateExisting_eq_filter (schema : Dict Str (List Str)) :
    ∀ nr : Dict Str SqlValue,
    eliminateExisting schema nr = nr.filter (fun kv => elimPred schema kv.1) := by
  induction schema with
  | nil => intro nr; simp [eliminateExisting, elimPred, filter_true_eq]
  | cons e rest ih =>
    intro nr
    rw [eliminateExisting, ih, alistPop, alistPop, popColumns_eq_filter,
      filter_filter_eq, filter_filter_eq, filter_filter_eq]
    apply List.filter_congr
    intro kv _
    simp [elimPred, Bool.and_assoc]

theorem elimPred_eq_specNewPred (schema : Dict Str (List Str)) (k : Str) :
    elimPred schema k = specNewPred schema k := by
  induction schema with
  | nil => simp [elimPred, specNewPred]
  | cons e rest ih =>
    rw [elimPred, ih]
    simp only [specNewPred, List.any_cons, List.isEmpty_cons, Bool.false_or,
      Bool.not_or]
    cases e.2.any (fun c => decide (c = k)) <;>
      cases rest.any (fun kv => kv.2.any (fun c => decide (c = k))) <;>
        cases rest.isEmpty <;>
          cases decide (k = "pk_string".toList) <;>
            cases decide (k = "pk_int".toList) <;> rfl

theorem eliminateExisting_spec (schema : Dict Str (List Str)) (nr : Dict Str SqlValue) :
    eliminateExisting schema nr = nr.filter (fun kv => specNewPred schema kv.1) := by
  rw [eliminateExisting_eq_filter]
  exact List.filter_congr (fun kv _ => elimPred_eq_specNewPred schema kv.1)

theorem suggestRows_ok (sample : Dict Str SqlValue)
    (h : ∀ kv ∈ sample, kv.2 ≠ SqlValue.null) :
    suggestRows sample = .ok (sample.map (fun kv => kv.1 ++ ' ' :: sqlTypeStr kv.2)) := by
  induction sample with
  | nil => rfl
  | cons kv rest ih =>
    have hkv := h kv (by simp)
    have ht : sqlType kv.2 = .ok (sqlTypeStr kv.2) := by
      cases hv : kv.2 with
      | null => exact absurd hv hkv
      | int i => rfl
      | text s => rfl
      | double d => rfl
    rw [suggestRows, ht, ih (fun q hq => h q (by simp [hq]))]
    rfl

theorem suggestMutation_absent (table_name : Str) (sample : Dict Str SqlValue) (add_rowz : Bool)
    (h : ∀ kv ∈ sample, kv.2 ≠ SqlValue.null) :
    suggestMutation [] table_name sample add_rowz =
      .ok [createTableStmt table_name
        ((sample.map (fun kv => kv.1 ++ ' ' :: sqlTypeStr kv.2)) ++
          (if add_rowz then [("pk_int INTEGER PRIMARY KEY".toList), ("pk_string TEXT".toList)]
           else []))] := by
  cases add_rowz <;> simp [suggestMutation, getSchema, suggestRows_ok sample h]

theorem suggestMutation_existing_empty (tableColumns : List Str) (table_name : Str)
    (sample : Dict Str SqlValue) (sch : Dict Str (List Str))
    (hs : getSchema tableColumns = some sch)
    (hempty : sample.filter (fun kv => specNewPred sch kv.1) = []) :
    suggestMutation tableColumns table_name sample true = .ok [] := by
  simp [suggestMutation, hs, eliminateExisting_spec, hempty]

theorem suggestMutation_existing (tableColumns : List Str) (table_name : Str)
    (sample : Dict Str SqlValue) (sch : Dict Str (List Str))
    (hs : getSchema tableColumns = some sch)
    (h : ∀ kv ∈ sample, kv.2 ≠ SqlValue.null) :
    suggestMutation tableColumns table_name sample true =
      .ok ((sample.filter (fun kv => specNewPred sch kv.1)).map
        (fun kv => alterTableStmt table_name (kv.1 ++ ' ' :: sqlTypeStr kv.2))) := by
  have hsub : ∀ kv ∈ sample.filter (fun kv => specNewPred sch kv.1), kv.2 ≠ SqlValue.null :=
    fun kv hkv => h kv (List.mem_of_mem_filter hkv)
  have hrows := suggestRows_ok _ hsub
  by_cases he : sample.filter (fun kv => specNewPred sch kv.1) = []
  · rw [he]
    simpa using suggestMutation_existing_empty tableColumns table_name sample sch hs he
  · simp [suggestMutation, hs, eliminateExisting_spec, hrows, he, List.map_map,
      Function.comp]

/-- Claim C2 (corrected): `suggestMutation` is a three-case function.  If
the table is absent it returns one CREATE TABLE statement with a typed
column definition for every sample column plus, when key columns are
requested, `pk_int INTEGER PRIMARY KEY` and `pk_string TEXT`.  If the
table exists and no sample column is new it returns the empty list; if
some sample columns are new it returns exactly one
ALTER TABLE ... ADD COLUMN statement per new column and none for
already-present columns.  As the counterexample forces, "new" here means:
not realized by a column of the derived schema, the reserved key columns
counting as not-new only when the derived schema is nonempty. -/
theorem c2_suggest_mutation_cases :
    (∀ table_name : Str, ∀ sample : Dict Str SqlValue, ∀ add_rowz : Bool,
      (∀ kv ∈ sample, kv.2 ≠ SqlValue.null) →
      suggestMutation [] table_name sample add_rowz =
        .ok [createTableStmt table_name
          ((sample.map (fun kv => kv.1 ++ ' ' :: sqlTypeStr kv.2)) ++
            (if add_rowz then [("pk_int INTEGER PRIMARY KEY".toList), ("pk_string TEXT".toList)]
             else []))]) ∧
    (∀ tableColumns : List Str, ∀ table_name : Str, ∀ sample : Dict Str SqlValue,
      ∀ sch : Dict Str (List Str), getSchema tableColumns = some sch →
      sample.filter (fun kv => specNewPred sch kv.1) = [] →
      suggestMutation tableColumns table_name sample true = .ok []) ∧
    (∀ tableColumns : List Str, ∀ table_name : Str, ∀ sample : Dict Str SqlValue,
      ∀ sch : Dict Str (List Str), getSchema tableColumns = some sch →
      (∀ kv ∈ sample, kv.2 ≠ SqlValue.null) →
      suggestMutation tableColumns table_name sample true =
        .ok ((sample.filter (fun kv => specNewPred sch kv.1)).map
          (fun kv => alterTableStmt table_name (kv.1 ++ ' ' :: sqlTypeStr kv.2)))) :=
  ⟨suggestMutation_absent,
   suggestMutation_existing_empty,
   suggestMutation_existing⟩

/-- Claim C2 counterexample: on an existing table holding only the two
reserved key columns (derived schema empty), a sample consisting of the
already-present column `pk_string` is not new, yet `suggestMutation`
emits an ALTER TABLE statement instead of the empty list — the reserved
key columns are only dropped inside the loop over schema entries. -/
theorem c2_counterexample_pk_only_table :
    suggestMutation [("pk_int".toList), ("pk_string".toList)] ['t']
        [(("pk_string".toList), SqlValue.text ['x'])] true =
      .ok [("ALTER TABLE t ADD COLUMN pk_string TEXT".toList)] ∧
    suggestMutation [("pk_int".toList), ("pk_string".toList)] ['t']
        [(("pk_string".toList), SqlValue.text ['x'])] true ≠ .ok [] := by
  constructor
  · decide
  · decide

theorem c2_suggest_mutation_cases_witness :
    suggestMutation [] ['t'] [(['a'], SqlValue.int 1)] true =
      .ok [("CREATE TABLE t (a INTEGER,pk_int INTEGER PRIMARY KEY,pk_string TEXT);".toList)] ∧
    suggestMutation [("pk_int".toList), ("int64_a".toList)] ['t']
        [(("int64_a".toList), SqlValue.int 2)] true = .ok [] ∧
    suggestMutation [("pk_int".toList), ("int64_a".toList)] ['t']
        [(("string_b".toList), SqlValue.text ['v'])] true =
      .ok [("ALTER TABLE t ADD COLUMN string_b TEXT".toList)] := by
  refine ⟨?_, ?_, ?_⟩
  · have h := c2_suggest_mutation_cases.1 ['t'] [(['a'], SqlValue.int 1)] true (by decide)
    rw [h]; decide
  · exact c2_suggest_mutation_cases.2.1 [("pk_int".toList), ("int64_a".toList)] ['t']
      [(("int64_a".toList), SqlValue.int 2)] [(['a'], [("int64_a".toList)])]
      (by decide) (by decide)
  · have h := c2_suggest_mutation_cases.2.2 [("pk_int".toList), ("int64_a".toList)] ['t']
      [(("string_b".toList), SqlValue.text ['v'])] [(['a'], [("int64_a".toList)])]
      (by decide) (by decide)
    rw [h]; decide

/-- Claim C7 (corrected): for an existing table whose derived schema is
nonempty, the statement list `suggestMutation` returns consists of one
ALTER statement per new non-key column, and the reserved key columns
`pk_int`/`pk_string` never appear among the new candidates even when they
occur in the sample map.  (As the counterexample shows, the exclusion does
not hold when the derived schema is empty.) -/
theorem c7_pk_exclusion (tableColumns : List Str) (table_name : Str)
    (sample : Dict Str SqlValue) (sch : Dict Str (List Str))
    (hs : getSchema tableColumns = some sch) (hne : sch ≠ [])
    (h : ∀ kv ∈ sample, kv.2 ≠ SqlValue.null) :
    suggestMutation tableColumns table_name sample true =
      .ok ((sample.filter (fun kv => specNewPred sch kv.1)).map
        (fun kv => alterTableStmt table_name (kv.1 ++ ' ' :: sqlTypeStr kv.2))) ∧
    ∀ kv ∈ sample.filter (fun kv => specNewPred sch kv.1),
      kv.1 ≠ ("pk_int".toList) ∧ kv.1 ≠ ("pk_string".toList) := by
  refine ⟨suggestMutation_existing tableColumns table_name sample sch hs h, ?_⟩
  intro kv hkv
  have hp := (List.mem_filter.mp hkv).2
  cases sch with
  | nil => exact absurd rfl hne
  | cons e rest =>
    simp only [specNewPred, List.isEmpty_cons, Bool.false_or, Bool.and_eq_true,
      Bool.not_eq_true', decide_eq_false_iff_not] at hp
    exact ⟨hp.2.2, hp.2.1⟩

/-- Claim C7 counterexample: on an existing table holding only the two
reserved key columns (derived schema empty), a sample containing `pk_int`
yields an ALTER TABLE statement that adds `pk_int` — the reserved key
columns are not excluded from the new candidates in this case. -/
theorem c7_counterexample_pk_only_table :
    suggestMutation [("pk_int".toList), ("pk_string".toList)] ['u']
        [(("pk_int".toList), SqlValue.int 3)] true =
      .ok [("ALTER TABLE u ADD COLUMN pk_int INTEGER".toList)] := by
  decide

theorem c7_pk_exclusion_witness :
    suggestMutation [("pk_int".toList), ("int64_a".toList)] ['t']
        [(("pk_int".toList), SqlValue.int 5), (("string_b".toList), SqlValue.text ['v'])] true =
      .ok [("ALTER TABLE t ADD COLUMN string_b TEXT".toList)] := by
  have h := c7_pk_exclusion [("pk_int".toList), ("int64_a".toList)] ['t']
    [(("pk_int".toList), SqlValue.int 5), (("string_b".toList), SqlValue.text ['v'])]
    [(['a'], [("int64_a".toList)])] (by decide) (by decide) (by decide)
  rw [h.1]; decide

/-- A query filter protocol buffer: an operator code and a property list
(each property carries the comparison operand as its value). -/
structure QueryFilter where
  op : Int
  props : List Property
  deriving DecidableEq

/-- Embeds `DatastoreSqlStub._Operator_NAMES`: the named comparators. -/
def operatorName (op : Int) : Option Str :=
  if op = 1 then some ("<".toList)
  else if op = 2 then some ("<=".toList)
  else if op = 3 then some (">".toList)
  else if op = 4 then some (">=".toList)
  else if op = 5 then some ("=".toList)
  else none

/-- Embeds `build_query_conditions`, the `populate_dict` closure of
`_Dynamic_RunQuery`: a named comparator stores the filter value under the
key `col_key op`; the existence operator (7) stores `None` under
`col_key NOT NULL`; a key already present fails the
`Multiple conditions not supported yet` assert (the documented
`DuplicateCondition`); any other operator fails the final assert. -/
def build_query_conditions (d : Dict Str SqlValue) (filter : QueryFilter)
    (col_key : Str) (value : SqlValue) : Except DsError (Dict Str SqlValue) :=
  match operatorName filter.op with
  | some nm =>
    if alistContains d (col_key ++ ' ' :: nm) then
      .error (.duplicateCondition (col_key ++ ' ' :: nm))
    else .ok (alistInsert d (col_key ++ ' ' :: nm) value)
  | none =>
    if filter.op = 7 then
      if alistContains d (col_key ++ (" NOT NULL".toList)) then
        .error (.duplicateCondition (col_key ++ (" NOT NULL".toList)))
      else .ok (alistInsert d (col_key ++ (" NOT NULL".toList)) SqlValue.null)
    else .error (.unsupportedOperator filter.op)

/-- The condition dictionary of a query's filters: `entityToDict` applied
with `get_list` = `filter_list`, `unwrap_properties` = `property_list`
and `populate_dict` = `build_query_conditions`. -/
def buildConditions (filters : List QueryFilter) : Except DsError (Dict Str SqlValue) :=
  entityToDictGen filters (fun f => f.props) build_query_conditions

/-- The condition key a filter operator generates for a physical column. -/
def condKey (op : Int) (col_key : Str) : Str :=
  match operatorName op with
  | some nm => col_key ++ ' ' :: nm
  | none => col_key ++ (" NOT NULL".toList)

/-- Whether `build_query_conditions` accepts an operator code. -/
def supportedOp (op : Int) : Bool :=
  (operatorName op).isSome || decide (op = 7)

/-- The condition keys generated by one operator over a property list
(one key per valued property). -/
def propCondKeys (op : Int) (ps : List Property) : List Str :=
  ps.filterMap (fun p => p.value.map (fun v => condKey op (colKey p.name v)))

/-- The condition keys of one filter. -/
def filterCondKeys (f : QueryFilter) : List Str :=
  propCondKeys f.op f.props

/-- All condition keys a filter list generates, in order. -/
def condKeys : List QueryFilter → List Str
  | [] => []
  | f :: rest => filterCondKeys f ++ condKeys rest

/-- Whether a translation outcome is the duplicate-condition failure. -/
def isDuplicateConditionError : Except DsError (Dict Str SqlValue) → Bool
  | .error (.duplicateCondition _) => true
  | _ => false

theorem alistContains_map_replace [DecidableEq κ] (d : Dict κ β) (k k' : κ) (v : β) :
    alistContains (d.map (fun p => if p.1 = k then (k, v) else p)) k' = alistContains d k' := by
  induction d with
  | nil => rfl
  | cons p rest ih =>
    by_cases hp : p.1 = k
    · simp only [List.map_cons, if_pos hp, alistContains, List.any_cons] at ih ⊢
      rw [hp, ih]
    · simp only [List.map_cons, if_neg hp, alistContains, List.any_cons] at ih ⊢
      rw [ih]

theorem alistContains_insert [DecidableEq κ] (d : Dict κ β) (k k' : κ) (v : β) :
    alistContains (alistInsert d k v) k' = (alistContains d k' || decide (k' = k)) := by
  by_cases hc : alistContains d k = true
  · rw [alistInsert, if_pos hc, alistContains_map_replace]
    by_cases hk : k' = k
    · subst hk; simp [hc]
    · simp [hk]
  · have hcf : alistContains d k = false := by simpa using hc
    rw [alistInsert_of_not_contains hcf, alistContains_append]
    by_cases hk : k' = k
    · subst hk; simp [alistContains]
    · have hk2 : ¬(k = k') := fun h => hk h.symm
      simp [alistContains, hk, hk2]

theorem bqc_loop_ok (f : QueryFilter) (ps : List Property) :
    ∀ d d' : Dict Str SqlValue,
    entityToDictLoop build_query_conditions f ps d = .ok d' →
    (propCondKeys f.op ps).Nodup ∧
    (∀ k ∈ propCondKeys f.op ps, alistContains d k = false) ∧
    (∀ k, alistContains d' k = (alistContains d k || decide (k ∈ propCondKeys f.op ps))) := by
  induction ps with
  | nil =>
    intro d d' h
    rw [entityToDictLoop] at h
    cases h
    refine ⟨List.nodup_nil, by simp [propCondKeys], ?_⟩
    intro k
    simp [propCondKeys]
  | cons p rest ih =>
    intro d d' h
    rw [entityToDictLoop] at h
    by_cases hb : (p.has_multiple && p.multiple) = true
    · rw [if_pos hb] at h; cases h
    · rw [if_neg hb] at h
      cases hv : p.value with
      | none =>
        simp only [hv] at h
        have hrest := ih d d' h
        have hkeys : propCondKeys f.op (p :: rest) = propCondKeys f.op rest := by
          simp [propCondKeys, List.filterMap_cons, hv]
        rw [hkeys]
        exact hrest
      | some v =>
        simp only [hv] at h
        have hkeys : propCondKeys f.op (p :: rest) =
            condKey f.op (colKey p.name v) :: propCondKeys f.op rest := by
          simp [propCondKeys, List.filterMap_cons, hv]
        rw [hkeys]
        rw [build_query_conditions.eq_def] at h
        cases hop : operatorName f.op with
        | some nm =>
          simp only [hop] at h
          have hck : condKey f.op (colKey p.name v) = colKey p.name v ++ ' ' :: nm := by
            rw [condKey.eq_def, hop]
          by_cases hcon : alistContains d (colKey p.name v ++ ' ' :: nm) = true
          · rw [if_pos hcon] at h; cases h
          · have hconf : alistContains d (colKey p.name v ++ ' ' :: nm) = false := by
              simpa using hcon
            rw [if_neg hcon] at h
            have hrest := ih (alistInsert d (colKey p.name v ++ ' ' :: nm) (sqlOfProp v)) d' h
            have hmem : condKey f.op (colKey p.name v) ∉ propCondKeys f.op rest := by
              intro hmem
              have := hrest.2.1 _ hmem
              rw [alistContains_insert, hck] at this
              simp at this
            refine ⟨List.nodup_cons.mpr ⟨hmem, hrest.1⟩, ?_, ?_⟩
            · intro k hk
              rcases List.mem_cons.mp hk with hk1 | hk2
              · rw [hk1, hck]; exact hconf
              · have := hrest.2.1 k hk2
                rw [alistContains_insert] at this
                rcases Bool.or_eq_false_iff.mp this with ⟨h1, _⟩
                exact h1
            · intro k
              rw [hrest.2.2 k, alistContains_insert, hck]
              by_cases hkk : k = colKey p.name v ++ ' ' :: nm
              · subst hkk
                simp [hck]
              · have hkk2 : ¬(k = condKey f.op (colKey p.name v)) := by rw [hck]; exact hkk
                simp [hkk, hkk2, Bool.or_assoc]
        | none =>
          simp only [hop] at h
          by_cases h7 : f.op = 7
          · rw [if_pos h7] at h
            have hck : condKey f.op (colKey p.name v) =
                colKey p.name v ++ (" NOT NULL".toList) := by
              rw [condKey.eq_def, hop]
            by_cases hcon : alistContains d (colKey p.name v ++ (" NOT NULL".toList)) = true
            · rw [if_pos hcon] at h; cases h
            · have hconf : alistContains d (colKey p.name v ++ (" NOT NULL".toList)) = false := by
                simpa using hcon
              rw [if_neg hcon] at h
              have hrest := ih (alistInsert d (colKey p.name v ++ (" NOT NULL".toList)) SqlValue.null) d' h
              have hmem : condKey f.op (colKey p.name v) ∉ propCondKeys f.op rest := by
                intro hmem
                have := hrest.2.1 _ hmem
                rw [alistContains_insert, hck] at this
                simp at this
              refine ⟨List.nodup_cons.mpr ⟨hmem, hrest.1⟩, ?_, ?_⟩
              · intro k hk
                rcases List.mem_cons.mp hk with hk1 | hk2
                · rw [hk1, hck]; exact hconf
                · have := hrest.2.1 k hk2
                  rw [alistContains_insert] at this
                  rcases Bool.or_eq_false_iff.mp this with ⟨h1, _⟩
                  exact h1
              · intro k
                rw [hrest.2.2 k, alistContains_insert, hck]
                by_cases hkk : k = colKey p.name v ++ (" NOT NULL".toList)
                · subst hkk
                  simp [hck]
                · have hkk2 : ¬(k = condKey f.op (colKey p.name v)) := by rw [hck]; exact hkk
                  simp [hkk, hkk2, Bool.or_assoc]
          · rw [if_neg h7] at h; cases h

theorem bqc_loop_total (f : QueryFilter) (hsup : supportedOp f.op = true) (ps : List Property) :
    ∀ d : Dict Str SqlValue,
    (∀ p ∈ ps, ¬(p.has_multiple = true ∧ p.multiple = true)) →
    (∃ d', entityToDictLoop build_query_conditions f ps d = .ok d') ∨
    (∃ k, entityToDictLoop build_query_conditions f ps d = .error (.duplicateCondition k)) := by
  induction ps with
  | nil => intro d _; exact Or.inl ⟨d, rfl⟩
  | cons p rest ih =>
    intro d hm
    have hb : (p.has_multiple && p.multiple) = false := by
      have hthis := hm p (by simp)
      cases hb1 : p.has_multiple with
      | false => simp
      | true =>
        cases hb2 : p.multiple with
        | false => simp
        | true => exact absurd ⟨hb1, hb2⟩ hthis
    cases hv : p.value with
    | none =>
      simp only [entityToDictLoop, hb, Bool.false_eq_true, if_false, hv]
      exact ih d (fun q hq => hm q (by simp [hq]))
    | some v =>
      simp only [entityToDictLoop, hb, Bool.false_eq_true, if_false, hv,
        build_query_conditions.eq_def]
      cases hop : operatorName f.op with
      | some nm =>
        simp only
        by_cases hcon : alistContains d (colKey p.name v ++ ' ' :: nm) = true
        · rw [if_pos hcon]
          exact Or.inr ⟨colKey p.name v ++ ' ' :: nm, rfl⟩
        · rw [if_neg hcon]
          exact ih _ (fun q hq => hm q (by simp [hq]))
      | none =>
        simp only
        have h7 : f.op = 7 := by
          rw [supportedOp, hop] at hsup
          simpa using hsup
        rw [if_pos h7]
        by_cases hcon : alistContains d (colKey p.name v ++ (" NOT NULL".toList)) = true
        · rw [if_pos hcon]
          exact Or.inr ⟨colKey p.name v ++ (" NOT NULL".toList), rfl⟩
        · rw [if_neg hcon]
          exact ih _ (fun q hq => hm q (by simp [hq]))

theorem bqc_items_ok (filters : List QueryFilter) :
    ∀ d d' : Dict Str SqlValue,
    entityToDictItems build_query_conditions (fun f => f.props) filters d = .ok d' →
    (condKeys filters).Nodup ∧
    (∀ k ∈ condKeys filters, alistContains d k = false) ∧
    (∀ k, alistContains d' k = (alistContains d k || decide (k ∈ condKeys filters))) := by
  induction filters with
  | nil =>
    intro d d' h
    rw [entityToDictItems] at h
    cases h
    exact ⟨List.nodup_nil, by simp [condKeys], fun k => by simp [condKeys]⟩
  | cons f rest ih =>
    intro d d' h
    rw [entityToDictItems] at h
    cases hloop : entityToDictLoop build_query_conditions f f.props d with
    | error e => rw [hloop] at h; cases h
    | ok d1 =>
      rw [hloop] at h
      have h1 := bqc_loop_ok f f.props d d1 hloop
      have h2 := ih d1 d' h
      rw [condKeys]
      refine ⟨?_, ?_, ?_⟩
      · rw [List.nodup_append]
        refine ⟨h1.1, h2.1, ?_⟩
        intro a ha hb2
        have hca : alistContains d1 a = true := by
          rw [h1.2.2 a]
          simp [filterCondKeys] at ha
          simp [ha]
        have hcb := h2.2.1 a hb2
        simp [hca] at hcb
      · intro k hk
        rcases List.mem_append.mp hk with hk1 | hk2
        · exact h1.2.1 k (by simpa [filterCondKeys] using hk1)
        · have hf := h2.2.1 k hk2
          rw [h1.2.2 k] at hf
          rcases Bool.or_eq_false_iff.mp hf with ⟨ha, _⟩
          exact ha
      · intro k
        rw [h2.2.2 k, h1.2.2 k]
        by_cases hk1 : k ∈ propCondKeys f.op f.props <;>
          by_cases hk2 : k ∈ condKeys rest <;>
            simp [hk1, hk2, filterCondKeys, List.mem_append, Bool.or_assoc]

theorem bqc_items_total : ∀ filters : List QueryFilter,
    (∀ f ∈ filters, supportedOp f.op = true) →
    (∀ f ∈ filters, ∀ p ∈ f.props, ¬(p.has_multiple = true ∧ p.multiple = true)) →
    ∀ d : Dict Str SqlValue,
    (∃ d', entityToDictItems build_query_conditions (fun f => f.props) filters d = .ok d') ∨
    (∃ k, entityToDictItems build_query_conditions (fun f => f.props) filters d =
      .error (.duplicateCondition k)) := by
  intro filters
  induction filters with
  | nil => intro _ _ d; exact Or.inl ⟨d, rfl⟩
  | cons f rest ih =>
    intro hok hmul d
    rcases bqc_loop_total f (hok f (by simp)) f.props d (hmul f (by simp)) with
      ⟨d1, hd1⟩ | ⟨k, hk⟩
    · simp only [entityToDictItems, hd1]
      exact ih (fun g hg => hok g (by simp [hg])) (fun g hg => hmul g (by simp [hg])) d1
    · simp only [entityToDictItems, hk]
      exact Or.inr ⟨k, rfl⟩

/-- Claim C3 (corrected): duplicate-condition detection is keyed on the
condition key, which includes both the physical column name and the
comparator.  Whenever a query's filters generate the same condition key
twice — same physical column with the same comparator — translation fails
with `DuplicateCondition`.  (As the counterexample shows, the pair
`number < 5` and `number > 1` carries different comparators and is
accepted with both conditions, contrary to the claim as stated.) -/
theorem c3_duplicate_condition (filters : List QueryFilter)
    (hok : ∀ f ∈ filters, supportedOp f.op = true)
    (hmul : ∀ f ∈ filters, ∀ p ∈ f.props, ¬(p.has_multiple = true ∧ p.multiple = true))
    (hdup : ¬ (condKeys filters).Nodup) :
    isDuplicateConditionError (buildConditions filters) = true := by
  rcases bqc_items_total filters hok hmul [] with ⟨d', hd'⟩ | ⟨k, hk⟩
  · exact absurd (bqc_items_ok filters [] d' hd').1 hdup
  · rw [buildConditions, entityToDictGen, hk]
    rfl

/-- Claim C3 counterexample: the filters `number < 5` and `number > 1`
target the same physical column `int64_number` but carry different
comparators, so their condition keys differ and translation succeeds with
both conditions in the dictionary — no `DuplicateCondition` is raised. -/
theorem c3_counterexample_lt_gt_accepted :
    buildConditions
      [⟨1, [⟨("number".toList), false, false, some (PropValue.int64 5)⟩]⟩,
       ⟨3, [⟨("number".toList), false, false, some (PropValue.int64 1)⟩]⟩] =
      .ok [(("int64_number <".toList), SqlValue.int 5),
           (("int64_number >".toList), SqlValue.int 1)] ∧
    isDuplicateConditionError (buildConditions
      [⟨1, [⟨("number".toList), false, false, some (PropValue.int64 5)⟩]⟩,
       ⟨3, [⟨("number".toList), false, false, some (PropValue.int64 1)⟩]⟩]) = false := by
  constructor
  · decide
  · decide

theorem c3_duplicate_condition_witness :
    isDuplicateConditionError (buildConditions
      [⟨1, [⟨("number".toList), false, false, some (PropValue.int64 5)⟩]⟩,
       ⟨1, [⟨("number".toList), false, false, some (PropValue.int64 3)⟩]⟩]) = true :=
  c3_duplicate_condition _ (by decide) (by decide) (by decide)

/-- A datastore key id: `datastore.Key.from_path` accepts an integer id
or a string name. -/
inductive KeyId where
  | intId : Int → KeyId
  | name : Str → KeyId
  deriving DecidableEq

/-- A datastore key: a kind plus its id-or-name. -/
structure Key where
  kind : Str
  id : KeyId
  deriving DecidableEq

/-- Embeds `datastore.Key.from_path(kind, v)` on a cell value: the external
library builds an integer id from an integer and a name from a string,
and rejects `None` and floats. -/
def key_from_path (kind : Str) (v : SqlValue) : Except DsError Key :=
  match v with
  | .int i => .ok ⟨kind, .intId i⟩
  | .text s => .ok ⟨kind, .name s⟩
  | .null => .error .typeError
  | .double _ => .error .typeError

/-- Python truthiness of a cell value (`if string_pk:`): `None`, the
integer 0 and the empty string are falsy.  (A double is falsy only when
its payload is an IEEE zero; key columns never hold doubles on the
embedded paths.) -/
def pyTruthy : SqlValue → Bool
  | .null => false
  | .int i => decide (i ≠ 0)
  | .text s => decide (s ≠ [])
  | .double _ => true

/-- Embeds `keyvals.get(k, None)`: a missing key and a stored SQL NULL both come
back as Python `None`. -/
def pyGetD (d : Dict Str SqlValue) (k : Str) : SqlValue :=
  match alistGet d k with
  | none => .null
  | some v => v

/-- Embeds `PRMHelper.pkFromRow`: no key when both `pk_int` and `pk_string` are
`None`; a string-named key when `pk_string` is truthy; otherwise an
integer key built from `pk_int`. -/
def pkFromRow (kind : Str) (keyvals : Dict Str SqlValue) : Except DsError (Option Key) :=
  let int_pk := pyGetD keyvals ("pk_int".toList)
  let string_pk := pyGetD keyvals ("pk_string".toList)
  if int_pk = SqlValue.null ∧ string_pk = SqlValue.null then .ok none
  else if pyTruthy string_pk then
    match key_from_path kind string_pk with
    | .error e => .error e
    | .ok k => .ok (some k)
  else
    match key_from_path kind int_pk with
    | .error e => .error e
    | .ok k => .ok (some k)

/-- Claim C8 (corrected): `pkFromRow` returns no key when `pk_int` and
`pk_string` are both absent or null; it returns a string-named key built
from `pk_string` when that cell is a NON-EMPTY string — taking precedence
over a present `pk_int` — and an integer key built from `pk_int` when
`pk_string` is absent, null or (as the counterexample forces) the empty
string. -/
theorem c8_pk_from_row :
    (∀ kind : Str, ∀ row : Dict Str SqlValue,
      pyGetD row ("pk_int".toList) = SqlValue.null →
      pyGetD row ("pk_string".toList) = SqlValue.null →
      pkFromRow kind row = .ok none) ∧
    (∀ kind : Str, ∀ row : Dict Str SqlValue, ∀ s : Str,
      pyGetD row ("pk_string".toList) = SqlValue.text s → s ≠ [] →
      pkFromRow kind row = .ok (some ⟨kind, .name s⟩)) ∧
    (∀ kind : Str, ∀ row : Dict Str SqlValue, ∀ i : Int,
      pyGetD row ("pk_int".toList) = SqlValue.int i →
      (pyGetD row ("pk_string".toList) = SqlValue.null ∨
       pyGetD row ("pk_string".toList) = SqlValue.text []) →
      pkFromRow kind row = .ok (some ⟨kind, .intId i⟩)) := by
  refine ⟨?_, ?_, ?_⟩
  · intro kind row h1 h2
    have h1b : pyGetD row ['p', 'k', '_', 'i', 'n', 't'] = SqlValue.null := h1
    have h2b : pyGetD row ['p', 'k', '_', 's', 't', 'r', 'i', 'n', 'g'] = SqlValue.null := h2
    simp [pkFromRow, h1b, h2b]
  · intro kind row s hs hne
    have hsb : pyGetD row ['p', 'k', '_', 's', 't', 'r', 'i', 'n', 'g'] = SqlValue.text s := hs
    simp [pkFromRow, hsb, pyTruthy, hne, key_from_path]
  · intro kind row i hi hs
    have hib : pyGetD row ['p', 'k', '_', 'i', 'n', 't'] = SqlValue.int i := hi
    rcases hs with hs | hs <;>
      have hsb : pyGetD row ['p', 'k', '_', 's', 't', 'r', 'i', 'n', 'g'] = _ := hs <;>
        simp [pkFromRow, hib, hsb, pyTruthy, key_from_path]

/-- Claim C8 counterexample: a row holding `pk_int = 7` and a NON-NULL
empty string in `pk_string` yields the integer key 7, not a string-named
key — `if string_pk:` is Python truthiness, and the empty string is
falsy. -/
theorem c8_counterexample_empty_string_name :
    pkFromRow ['M']
        [(("pk_int".toList), SqlValue.int 7), (("pk_string".toList), SqlValue.text [])] =
      .ok (some ⟨['M'], KeyId.intId 7⟩) ∧
    pkFromRow ['M']
        [(("pk_int".toList), SqlValue.int 7), (("pk_string".toList), SqlValue.text [])] ≠
      .ok (some ⟨['M'], KeyId.name []⟩) := by
  constructor
  · decide
  · decide

theorem c8_pk_from_row_witness :
    pkFromRow ['M'] [] = .ok none ∧
    pkFromRow ['M']
        [(("pk_int".toList), SqlValue.int 4), (("pk_string".toList), SqlValue.text ['n'])] =
      .ok (some ⟨['M'], KeyId.name ['n']⟩) ∧
    pkFromRow ['M'] [(("pk_int".toList), SqlValue.int 4)] =
      .ok (some ⟨['M'], KeyId.intId 4⟩) :=
  ⟨c8_pk_from_row.1 ['M'] [] (by decide) (by decide),
   c8_pk_from_row.2.1 ['M'] _ ['n'] (by decide) (by decide),
   c8_pk_from_row.2.2 ['M'] _ 4 (by decide) (Or.inl (by decide))⟩

/-- A sort-order entry of a query: property name and direction
(`datastore_pb.Query_Order.ASCENDING` is 1). -/
structure SortOrder where
  property : Str
  direction : Int
  deriving DecidableEq

/-- An entity materialized by the store: the key extracted from the row
and the decoded properties.  (The entity group mirrors the key's root
element and is not modelled separately.) -/
structure Entity where
  key : Key
  props : List Property
  deriving DecidableEq

/-- Embeds `PRMHelper.rowToDict`: zips the cursor metadata with the row (a row
is modelled directly as that column-name-to-cell map); with
`remove_metadata` the two key columns are popped without a default, so a
row missing either raises `KeyError`. -/
def rowToDict (row : Dict Str SqlValue) (remove_metadata : Bool) :
    Except DsError (Dict Str SqlValue) :=
  if remove_metadata then
    if alistContains row ("pk_string".toList) then
      if alistContains (alistPop row ("pk_string".toList)) ("pk_int".toList) then
        .ok (alistPop (alistPop row ("pk_string".toList)) ("pk_int".toList))
      else .error .typeError
    else .error .typeError
  else .ok row

/-- Python `str(count)`, used for the positional parameter names. -/
def natToStr (n : Nat) : Str := (toString n).toList

/-- The WHERE/AND chain of `_Dynamic_RunQuery`: the first condition
attaches via WHERE, later ones via AND; a non-`None` condition value is
bound as the named parameter `:count` (never string-interpolated). -/
def buildStatementLoop : Dict Str SqlValue → Str → Dict Str SqlValue → Nat →
    Str × Dict Str SqlValue
  | [], sqlquery, params, _ => (sqlquery, params)
  | kv :: rest, sqlquery, params, count =>
    let sqlquery2 := if count = 0 then sqlquery ++ (" WHERE ".toList) ++ kv.1
      else sqlquery ++ (" AND ".toList) ++ kv.1
    if kv.2 ≠ SqlValue.null then
      buildStatementLoop rest (sqlquery2 ++ (" :".toList) ++ natToStr count)
        (alistInsert params (natToStr count) kv.2) (count + 1)
    else
      buildStatementLoop rest sqlquery2 params (count + 1)

/-- The parameterized statement for a kind and its condition map. -/
def buildStatement (kind : Str) (conditions : Dict Str SqlValue) : Str × Dict Str SqlValue :=
  buildStatementLoop conditions (("SELECT * FROM ".toList) ++ kind) [] 0

/-- The ORDER BY entries of `_Dynamic_RunQuery`: each sort entry
contributes one `column ASC`/`column DESC` per physical column of its
property, and is silently dropped when the schema is `None` or empty
(`if schema and ...`) or does not know the property. -/
def orderConditions (schema : Option (Dict Str (List Str))) : List SortOrder → List Str
  | [] => []
  | entry :: rest =>
    (match schema with
     | none => []
     | some s =>
       if s ≠ [] ∧ alistContains s entry.property = true then
         match alistGet s entry.property with
         | none => []
         | some cols =>
           cols.map (fun column =>
             column ++ ' ' :: (if entry.direction = 1 then ("ASC".toList) else ("DESC".toList)))
       else []) ++ orderConditions schema rest

/-- Appends the ORDER BY clause when any order condition survived. -/
def addOrderBy (sqlquery : Str) (schema : Option (Dict Str (List Str)))
    (orders : List SortOrder) : Str :=
  if (orderConditions schema orders).length > 0 then
    sqlquery ++ (" ORDER BY ".toList) ++ joinSep (", ".toList) (orderConditions schema orders)
  else sqlquery

/-- The query-translator part of `_Dynamic_RunQuery` (filters to
conditions, conditions to statement text and bound parameters, sort
orders to the ORDER BY clause). -/
def translateQuery (kind : Str) (filters : List QueryFilter) (orders : List SortOrder)
    (schema : Option (Dict Str (List Str))) : Except DsError (Str × Dict Str SqlValue) :=
  match entityToDictGen filters (fun f => f.props) build_query_conditions with
  | .error e => .error e
  | .ok conditions =>
    .ok (addOrderBy (buildStatement kind conditions).1 schema orders,
         (buildStatement kind conditions).2)

/-- The store's mutable cursor state: the next cursor id and the registry
mapping each issued id to the remaining result sequence and the original
count. -/
structure StoreState where
  next_cursor : Nat
  queries : Dict Nat (List Entity × Nat)
  deriving DecidableEq

/-- The RunQuery response: the allocated cursor id and the more-results
flag. -/
structure QueryResult where
  cursor : Nat
  more_results : Bool
  deriving DecidableEq

/-- The Next response: the returned entities and the more-results flag. -/
structure NextResult where
  results : List Entity
  more_results : Bool
  deriving DecidableEq

/-- Python truthiness of the derived schema (`if schema:`): falsy when
`None` or the empty dict. -/
def schemaTruthy : Option (Dict Str (List Str)) → Bool
  | none => false
  | some s => decide (s ≠ [])

/-- The per-row conversion of `_Dynamic_RunQuery`: keep the full row map,
decode it into properties, and extract the primary key (`CopyFrom` of a
`None` key raises). -/
def rowToEntityRQ (kind : Str) (row : Dict Str SqlValue) : Except DsError Entity :=
  match rowToDict row false with
  | .error e => .error e
  | .ok keyvals =>
    match dictToEntity keyvals with
    | .error e => .error e
    | .ok props =>
      match pkFromRow kind keyvals with
      | .error e => .error e
      | .ok none => .error .typeError
      | .ok (some k) => .ok ⟨k, props⟩

/-- The row-conversion loop of `_Dynamic_RunQuery`. -/
def convertRows (kind : Str) : List (Dict Str SqlValue) → Except DsError (List Entity)
  | [] => .ok []
  | row :: rest =>
    match rowToEntityRQ kind row with
    | .error e => .error e
    | .ok e =>
      match convertRows kind rest with
      | .error e2 => .error e2
      | .ok es => .ok (e :: es)

/-- Embeds `DatastoreSqlStub._Dynamic_RunQuery` of `trunk/datastore_base.py`.
The relational engine is an external collaborator: `driverRows` is the
row sequence the driver returns for the translated statement.  When the
schema is truthy the offset loop drops that many leading rows
(`StopIteration` caught, so fewer when fewer exist) and `fetchmany`
materializes at most `max(0, min(1000, limit))` rows; otherwise no
statement is executed and the row list stays empty.  The converted
results are registered with their count under a freshly allocated cursor
id, and `more_results` is `len(results) > 0`. -/
def dynamicRunQuery (st : StoreState) (kind : Str) (filters : List QueryFilter)
    (orders : List SortOrder) (offset : Nat) (limit : Int)
    (tableColumns : List Str) (driverRows : List (Dict Str SqlValue)) :
    Except DsError (StoreState × QueryResult) :=
  match translateQuery kind filters orders (getSchema tableColumns) with
  | .error e => .error e
  | .ok _ =>
    match convertRows kind
        (if schemaTruthy (getSchema tableColumns) then
          (driverRows.drop offset).take (max 0 (min 1000 limit)).toNat
        else []) with
    | .error e => .error e
    | .ok results =>
      .ok (⟨st.next_cursor + 1, alistInsert st.queries st.next_cursor (results, results.length)⟩,
           ⟨st.next_cursor, decide (results.length > 0)⟩)

/-- Embeds `DatastoreSqlStub._Dynamic_Next`: look up the cursor (failing with
the `Cursor %d not found` BAD_REQUEST when absent), return the first
`count` remaining entities, delete exactly those from the remaining
sequence in place — the registry entry itself is never removed — and
report whether entities remain. -/
def dynamicNext (st : StoreState) (cursor : Nat) (count : Nat) :
    Except DsError (StoreState × NextResult) :=
  match alistGet st.queries cursor with
  | none => .error (.cursorNotFound cursor)
  | some q =>
    .ok (⟨st.next_cursor, alistInsert st.queries cursor (q.1.drop count, q.2)⟩,
         ⟨q.1.take count, decide ((q.1.drop count).length > 0)⟩)

theorem alistGet_map_replace [DecidableEq κ] (d : Dict κ β) (k : κ) (v : β)
    (hc : alistContains d k = true) :
    alistGet (d.map (fun p => if p.1 = k then (k, v) else p)) k = some v := by
  induction d with
  | nil => simp [alistContains] at hc
  | cons p rest ih =>
    by_cases hp : p.1 = k
    · simp [List.map_cons, if_pos hp, alistGet]
    · rw [List.map_cons, if_neg hp, alistGet, if_neg hp]
      exact ih (by simpa [alistContains, hp] using hc)

theorem alistGet_append_single [DecidableEq κ] (d : Dict κ β) (k : κ) (v : β)
    (hc : alistContains d k = false) :
    alistGet (d ++ [(k, v)]) k = some v := by
  induction d with
  | nil => simp [alistGet]
  | cons p rest ih =>
    have hp : ¬(p.1 = k) := by
      intro hp
      simp [alistContains, hp] at hc
    rw [List.cons_append, alistGet, if_neg hp]
    exact ih (by simpa [alistContains, hp] using hc)

theorem alistGet_insert_self [DecidableEq κ] (d : Dict κ β) (k : κ) (v : β) :
    alistGet (alistInsert d k v) k = some v := by
  by_cases hc : alistContains d k = true
  · rw [alistInsert, if_pos hc]
    exact alistGet_map_replace d k v hc
  · have hcf : alistContains d k = false := by simpa using hc
    rw [alistInsert_of_not_contains hcf]
    exact alistGet_append_single d k v hcf

theorem alistGet_eq_none_of_lt (d : Dict Nat β) (k : Nat)
    (h : ∀ j ∈ d.map Prod.fst, j < k) : alistGet d k = none := by
  induction d with
  | nil => rfl
  | cons p rest ih =>
    have hp := h p.1 (by simp)
    rw [alistGet, if_neg (by omega)]
    exact ih (fun j hj => h j (by simp [hj]))

theorem take_eq_of_length_le : ∀ (l : List α) (n : Nat), l.length ≤ n → l.take n = l := by
  intro l
  induction l with
  | nil => intro n _; simp
  | cons a tl ih =>
    intro n h
    cases n with
    | zero => simp at h
    | succ m =>
      rw [List.take_succ_cons, ih m (by simpa using h)]

theorem drop_eq_nil_of_length_le : ∀ (l : List α) (n : Nat), l.length ≤ n → l.drop n = [] := by
  intro l
  induction l with
  | nil => intro n _; simp
  | cons a tl ih =>
    intro n h
    cases n with
    | zero => simp at h
    | succ m => exact ih m (by simpa using h)

theorem convertRows_length (kind : Str) :
    ∀ (rows : List (Dict Str SqlValue)) (es : List Entity),
    convertRows kind rows = .ok es → es.length = rows.length := by
  intro rows
  induction rows with
  | nil =>
    intro es h
    rw [convertRows] at h
    cases h
    rfl
  | cons row rest ih =>
    intro es h
    rw [convertRows] at h
    cases he : rowToEntityRQ kind row with
    | error e => rw [he] at h; cases h
    | ok e =>
      rw [he] at h
      cases hr : convertRows kind rest with
      | error e2 => rw [hr] at h; cases h
      | ok es2 =>
        rw [hr] at h
        cases h
        simp [ih es2 hr]

/-- Claim C6: for every cursor id present in the registry with remaining
sequence `s` and every requested count `n`, Next returns the first
min(n, |s|) entities of `s` in order, leaves exactly `s.drop n`
registered, and reports has-more iff entities remain afterwards; Next
with an id absent from the registry fails with `CursorNotFound`. -/
theorem c6_next_semantics :
    (∀ st : StoreState, ∀ cursor count : Nat, ∀ s : List Entity, ∀ orig : Nat,
      alistGet st.queries cursor = some (s, orig) →
      dynamicNext st cursor count =
        .ok (⟨st.next_cursor, alistInsert st.queries cursor (s.drop count, orig)⟩,
             ⟨s.take count, decide ((s.drop count).length > 0)⟩) ∧
      (s.take count).length = min count s.length) ∧
    (∀ st : StoreState, ∀ cursor count : Nat,
      alistGet st.queries cursor = none →
      dynamicNext st cursor count = .error (.cursorNotFound cursor)) := by
  constructor
  · intro st cursor count s orig h
    constructor
    · rw [dynamicNext.eq_def, h]
    · exact List.length_take count s
  · intro st cursor count h
    rw [dynamicNext.eq_def, h]

theorem c6_next_semantics_witness :
    dynamicNext ⟨3, [(1, ([⟨⟨['K'], KeyId.intId 1⟩, []⟩, ⟨⟨['K'], KeyId.intId 2⟩, []⟩], 2))]⟩ 1 1 =
      .ok (⟨3, [(1, ([⟨⟨['K'], KeyId.intId 2⟩, []⟩], 2))]⟩,
           ⟨[⟨⟨['K'], KeyId.intId 1⟩, []⟩], true⟩) ∧
    dynamicNext ⟨3, [(1, ([], 0))]⟩ 9 1 = .error (.cursorNotFound 9) := by
  constructor
  · have h := (c6_next_semantics.1
      ⟨3, [(1, ([⟨⟨['K'], KeyId.intId 1⟩, []⟩, ⟨⟨['K'], KeyId.intId 2⟩, []⟩], 2))]⟩ 1 1
      [⟨⟨['K'], KeyId.intId 1⟩, []⟩, ⟨⟨['K'], KeyId.intId 2⟩, []⟩] 2 (by decide)).1
    rw [h]; decide
  · exact c6_next_semantics.2 ⟨3, [(1, ([], 0))]⟩ 9 1 (by decide)

/-- Claim C5 (corrected): a cursor id is never removed from the registry.
A Next call that consumes the whole remaining sequence reports has-more
false but leaves the id registered with the empty sequence, and every
subsequent Next on that id still succeeds, returning zero entities with
has-more false; `CursorNotFound` arises only for ids that were never
registered. -/
theorem c5_cursor_never_removed (st : StoreState) (cursor : Nat) (s : List Entity)
    (orig : Nat) (n : Nat) (hreg : alistGet st.queries cursor = some (s, orig))
    (hall : s.length ≤ n) :
    dynamicNext st cursor n =
      .ok (⟨st.next_cursor, alistInsert st.queries cursor ([], orig)⟩, ⟨s, false⟩) ∧
    alistGet (alistInsert st.queries cursor ([], orig)) cursor = some ([], orig) ∧
    ∀ m : Nat,
      dynamicNext ⟨st.next_cursor, alistInsert st.queries cursor ([], orig)⟩ cursor m =
        .ok (⟨st.next_cursor, alistInsert (alistInsert st.queries cursor ([], orig)) cursor ([], orig)⟩,
             ⟨[], false⟩) := by
  have htake : s.take n = s := take_eq_of_length_le s n hall
  have hdrop : s.drop n = [] := drop_eq_nil_of_length_le s n hall
  refine ⟨?_, ?_, ?_⟩
  · rw [dynamicNext.eq_def, hreg]
    simp [htake, hdrop]
  · exact alistGet_insert_self st.queries cursor ([], orig)
  · intro m
    rw [dynamicNext.eq_def]
    simp only [alistGet_insert_self]
    simp

/-- Claim C5 counterexample: after a Next consumes the single entity of
cursor 1, a further Next on cursor 1 still succeeds with zero entities
and has-more false instead of failing with CursorNotFound — the id stays
in the registry when its remaining sequence becomes empty. -/
theorem c5_counterexample_exhausted_cursor_still_found :
    dynamicNext ⟨2, [(1, ([⟨⟨['K'], KeyId.intId 1⟩, []⟩], 1))]⟩ 1 1 =
      .ok (⟨2, [(1, ([], 1))]⟩, ⟨[⟨⟨['K'], KeyId.intId 1⟩, []⟩], false⟩) ∧
    dynamicNext ⟨2, [(1, ([], 1))]⟩ 1 1 = .ok (⟨2, [(1, ([], 1))]⟩, ⟨[], false⟩) := by
  constructor
  · decide
  · decide

theorem c5_cursor_never_removed_witness :
    dynamicNext ⟨2, [(1, ([⟨⟨['K'], KeyId.intId 3⟩, []⟩], 1))]⟩ 1 5 =
      .ok (⟨2, alistInsert ([(1, ([⟨⟨['K'], KeyId.intId 3⟩, []⟩], 1))] :
             Dict Nat (List Entity × Nat)) 1 ([], 1)⟩,
           ⟨[⟨⟨['K'], KeyId.intId 3⟩, []⟩], false⟩) ∧
    alistGet (alistInsert ([(1, ([⟨⟨['K'], KeyId.intId 3⟩, []⟩], 1))] :
        Dict Nat (List Entity × Nat)) 1 ([], 1)) 1 =
      some ([], 1) ∧
    dynamicNext ⟨2, alistInsert ([(1, ([⟨⟨['K'], KeyId.intId 3⟩, []⟩], 1))] :
        Dict Nat (List Entity × Nat)) 1 ([], 1)⟩ 1 4 =
      .ok (⟨2, alistInsert (alistInsert ([(1, ([⟨⟨['K'], KeyId.intId 3⟩, []⟩], 1))] :
             Dict Nat (List Entity × Nat)) 1 ([], 1)) 1 ([], 1)⟩,
           ⟨[], false⟩) := by
  have h := c5_cursor_never_removed ⟨2, [(1, ([⟨⟨['K'], KeyId.intId 3⟩, []⟩], 1))]⟩ 1
    [⟨⟨['K'], KeyId.intId 3⟩, []⟩] 1 5 (by decide) (by decide)
  exact ⟨h.1, h.2.1, h.2.2 4⟩

/-- Claim C4 (corrected): RunQuery with a limit of 5 against a kind whose
statement matches exactly 3 stored rows materializes exactly 3 result
entities, registers them with count 3 under the freshly allocated
cursor, and the RunQuery response reports more-results TRUE — the flag is
`len(results) > 0`, not an indication of further results beyond the
buffered ones, so it is true (not false as claimed) whenever any result
exists. -/
theorem c4_runquery_three_rows (st : StoreState) (kind : Str) (tableColumns : List Str)
    (sch : Dict Str (List Str)) (driverRows : List (Dict Str SqlValue)) (es : List Entity)
    (hs : getSchema tableColumns = some sch) (hne : sch ≠ [])
    (hlen : driverRows.length = 3)
    (hconv : convertRows kind driverRows = .ok es) :
    dynamicRunQuery st kind [] [] 0 5 tableColumns driverRows =
      .ok (⟨st.next_cursor + 1, alistInsert st.queries st.next_cursor (es, es.length)⟩,
           ⟨st.next_cursor, true⟩) ∧
    es.length = 3 := by
  have hlen2 : es.length = 3 := by rw [convertRows_length kind driverRows es hconv, hlen]
  refine ⟨?_, hlen2⟩
  have htr : translateQuery kind [] [] (getSchema tableColumns) =
      .ok (addOrderBy (buildStatement kind []).1 (getSchema tableColumns) [],
           (buildStatement kind []).2) := rfl
  rw [dynamicRunQuery.eq_def, htr]
  have hst : schemaTruthy (getSchema tableColumns) = true := by
    rw [hs]
    simp [schemaTruthy, hne]
  have hclamp : ((max 0 (min 1000 (5 : Int))).toNat : Nat) = 5 := by decide
  have htake : (driverRows.drop 0).take (max 0 (min 1000 (5 : Int))).toNat = driverRows := by
    rw [List.drop_zero, hclamp]
    exact take_eq_of_length_le driverRows 5 (by omega)
  simp only [hst, if_true, htake, hconv]
  have hpos : decide (es.length > 0) = true := by
    rw [hlen2]
    decide
  rw [hpos]

/-- Claim C4 counterexample: with 3 matching rows and a limit of 5, the
RunQuery response's more-results flag is TRUE, not false as the claim
states. -/
theorem c4_counterexample_more_results_not_false :
    (match dynamicRunQuery ⟨1, []⟩ ['K'] [] [] 0 5
        [("pk_int".toList), ("int64_a".toList)]
        [[(("pk_int".toList), SqlValue.int 1), (("int64_a".toList), SqlValue.int 10)],
         [(("pk_int".toList), SqlValue.int 2), (("int64_a".toList), SqlValue.int 20)],
         [(("pk_int".toList), SqlValue.int 3), (("int64_a".toList), SqlValue.int 30)]] with
      | .ok r => some r.2.more_results
      | .error _ => none) = some true := by
  decide

theorem c4_runquery_three_rows_witness :
    dynamicRunQuery ⟨1, []⟩ ['K'] [] [] 0 5
        [("pk_int".toList), ("int64_a".toList)]
        [[(("pk_int".toList), SqlValue.int 1), (("int64_a".toList), SqlValue.int 10)],
         [(("pk_int".toList), SqlValue.int 2), (("int64_a".toList), SqlValue.int 20)],
         [(("pk_int".toList), SqlValue.int 3), (("int64_a".toList), SqlValue.int 30)]] =
      .ok (⟨2, [(1, ([⟨⟨['K'], KeyId.intId 1⟩, [⟨['a'], true, false, some (PropValue.int64 10)⟩]⟩,
                      ⟨⟨['K'], KeyId.intId 2⟩, [⟨['a'], true, false, some (PropValue.int64 20)⟩]⟩,
                      ⟨⟨['K'], KeyId.intId 3⟩, [⟨['a'], true, false, some (PropValue.int64 30)⟩]⟩],
                     3))]⟩,
           ⟨1, true⟩) := by
  have h := c4_runquery_three_rows ⟨1, []⟩ ['K']
    [("pk_int".toList), ("int64_a".toList)] [(['a'], [("int64_a".toList)])]
    [[(("pk_int".toList), SqlValue.int 1), (("int64_a".toList), SqlValue.int 10)],
     [(("pk_int".toList), SqlValue.int 2), (("int64_a".toList), SqlValue.int 20)],
     [(("pk_int".toList), SqlValue.int 3), (("int64_a".toList), SqlValue.int 30)]]
    [⟨⟨['K'], KeyId.intId 1⟩, [⟨['a'], true, false, some (PropValue.int64 10)⟩]⟩,
     ⟨⟨['K'], KeyId.intId 2⟩, [⟨['a'], true, false, some (PropValue.int64 20)⟩]⟩,
     ⟨⟨['K'], KeyId.intId 3⟩, [⟨['a'], true, false, some (PropValue.int64 30)⟩]⟩]
    (by decide) (by decide) (by decide) (by decide)
  rw [h.1]
  decide

/-- Claim C9: RunQuery first discards the requested offset of leading
rows from the driver-level result sequence (discarding fewer only when
fewer exist, which is exactly `List.drop`), then materializes at most
max(0, min(1000, limit)) rows; this effective limit always lies in the
inclusive range [0, 1000] and no error is raised for out-of-range
limits. -/
theorem c9_offset_and_limit_clamp (st : StoreState) (kind : Str) (offset : Nat) (limit : Int)
    (tableColumns : List Str) (sch : Dict Str (List Str))
    (driverRows : List (Dict Str SqlValue)) (es : List Entity)
    (hs : getSchema tableColumns = some sch) (hne : sch ≠ [])
    (hconv : convertRows kind
      ((driverRows.drop offset).take (max 0 (min 1000 limit)).toNat) = .ok es) :
    dynamicRunQuery st kind [] [] offset limit tableColumns driverRows =
      .ok (⟨st.next_cursor + 1, alistInsert st.queries st.next_cursor (es, es.length)⟩,
           ⟨st.next_cursor, decide (es.length > 0)⟩) ∧
    es.length ≤ (max 0 (min 1000 limit)).toNat ∧
    (0 : Int) ≤ max 0 (min 1000 limit) ∧ max 0 (min 1000 limit) ≤ 1000 := by
  refine ⟨?_, ?_, le_max_left 0 _, max_le (by norm_num) (min_le_left 1000 limit)⟩
  · have htr : translateQuery kind [] [] (getSchema tableColumns) =
        .ok (addOrderBy (buildStatement kind []).1 (getSchema tableColumns) [],
             (buildStatement kind []).2) := rfl
    rw [dynamicRunQuery.eq_def, htr]
    have hst : schemaTruthy (getSchema tableColumns) = true := by
      rw [hs]
      simp [schemaTruthy, hne]
    simp only [hst, if_true, hconv]
  · rw [convertRows_length kind _ es hconv]
    calc ((driverRows.drop offset).take (max 0 (min 1000 limit)).toNat).length
        ≤ (max 0 (min 1000 limit)).toNat := by
          rw [List.length_take]
          omega

theorem c9_offset_and_limit_clamp_witness :
    dynamicRunQuery ⟨1, []⟩ ['K'] [] [] 1 2000
        [("pk_int".toList), ("int64_a".toList)]
        [[(("pk_int".toList), SqlValue.int 1), (("int64_a".toList), SqlValue.int 10)],
         [(("pk_int".toList), SqlValue.int 2), (("int64_a".toList), SqlValue.int 20)]] =
      .ok (⟨2, [(1, ([⟨⟨['K'], KeyId.intId 2⟩,
                       [⟨['a'], true, false, some (PropValue.int64 20)⟩]⟩], 1))]⟩,
           ⟨1, true⟩) ∧
    (0 : Int) ≤ max 0 (min 1000 (2000 : Int)) ∧ max 0 (min 1000 (2000 : Int)) ≤ 1000 := by
  have h := c9_offset_and_limit_clamp ⟨1, []⟩ ['K'] 1 2000
    [("pk_int".toList), ("int64_a".toList)] [(['a'], [("int64_a".toList)])]
    [[(("pk_int".toList), SqlValue.int 1), (("int64_a".toList), SqlValue.int 10)],
     [(("pk_int".toList), SqlValue.int 2), (("int64_a".toList), SqlValue.int 20)]]
    [⟨⟨['K'], KeyId.intId 2⟩, [⟨['a'], true, false, some (PropValue.int64 20)⟩]⟩]
    (by decide) (by decide) (by decide)
  refine ⟨?_, h.2.2.1, h.2.2.2⟩
  rw [h.1]
  decide

/-- Claim C10: every RunQuery — in particular one whose result set is
empty because the queried table's schema is absent and no statement is
executed — allocates the fresh cursor id `next_cursor` (fresh whenever
all registered ids are below it), registers the empty result sequence
with count 0 under it, and reports more-results false; a subsequent Next
on that cursor succeeds and returns zero entities with has-more false
rather than failing with CursorNotFound. -/
theorem c10_empty_query_allocates_cursor (st : StoreState) (kind : Str)
    (filters : List QueryFilter) (orders : List SortOrder) (offset : Nat) (limit : Int)
    (tableColumns : List Str) (driverRows : List (Dict Str SqlValue))
    (conds : Dict Str SqlValue) (n : Nat)
    (hs : getSchema tableColumns = none)
    (hc : entityToDictGen filters (fun f => f.props) build_query_conditions = .ok conds)
    (hfresh : ∀ k ∈ st.queries.map Prod.fst, k < st.next_cursor) :
    dynamicRunQuery st kind filters orders offset limit tableColumns driverRows =
      .ok (⟨st.next_cursor + 1, alistInsert st.queries st.next_cursor ([], 0)⟩,
           ⟨st.next_cursor, false⟩) ∧
    alistGet st.queries st.next_cursor = none ∧
    dynamicNext ⟨st.next_cursor + 1, alistInsert st.queries st.next_cursor ([], 0)⟩
        st.next_cursor n =
      .ok (⟨st.next_cursor + 1,
            alistInsert (alistInsert st.queries st.next_cursor ([], 0)) st.next_cursor ([], 0)⟩,
           ⟨[], false⟩) := by
  refine ⟨?_, alistGet_eq_none_of_lt st.queries st.next_cursor hfresh, ?_⟩
  · have htr : translateQuery kind filters orders (getSchema tableColumns) =
        .ok (addOrderBy (buildStatement kind conds).1 (getSchema tableColumns) orders,
             (buildStatement kind conds).2) := by
      rw [translateQuery.eq_def, hc]
    rw [dynamicRunQuery.eq_def, htr, hs]
    simp [schemaTruthy, convertRows]
  · rw [dynamicNext.eq_def]
    simp only [alistGet_insert_self]
    simp

theorem c10_empty_query_allocates_cursor_witness :
    dynamicRunQuery ⟨1, []⟩ ['K'] [] [] 0 7 [] [] =
      .ok (⟨2, alistInsert ([] : Dict Nat (List Entity × Nat)) 1 ([], 0)⟩, ⟨1, false⟩) ∧
    dynamicNext ⟨2, alistInsert ([] : Dict Nat (List Entity × Nat)) 1 ([], 0)⟩ 1 2 =
      .ok (⟨2, alistInsert (alistInsert ([] : Dict Nat (List Entity × Nat)) 1 ([], 0)) 1 ([], 0)⟩,
           ⟨[], false⟩) := by
  have h := c10_empty_query_allocates_cursor ⟨1, []⟩ ['K'] [] [] 0 7 [] [] [] 2 rfl rfl (by simp)
  exact ⟨h.1, h.2.2⟩
